import Mathlib

/-
Verification of the SSE chat backend (src/index.ts).

The whole server is shallowly embedded as a state machine.  The global
mutable state of the Node process is the record `ServerState`:

  - `eventEmitters` models the global
    `Map<string, { emitter: EventEmitter; messageCounter: number }>`
    (index.ts lines 35-38), an association list from channel id to
    `ChannelData`;
  - `listeners` models, per `EventEmitter` object (identified by an
    allocation number `emitterId`), the ordered list of "broadcast"
    listeners registered on it.  Each listener is a `Subscriber`: the
    closure created by one GET /events/:channelId request, carrying its
    own captured `messageCounter` variable (line 152) exactly as in the
    source;
  - `store` models the external Postgres tables `channels` and
    `messages` as lists, with serial ids;
  - `pubLog` is a pure observation log: one entry `(emitterId, counter)`
    per `emitter.emit("broadcast", ...)` that had at least one listener,
    recording the map-stored counter at the moment of the emit.  It
    changes no behaviour; it only lets theorems count publishes.

Each HTTP handler of index.ts becomes a function
`ServerState -> args -> ServerState x List Response`.  The response list
records every status line the handler attempts to send, in order; a
real HTTP client observes only the head (a second send fails with
"headers already sent").  Runtime events the code does NOT handle
(client disconnect, server shutdown) are modelled as transitions that
change only what the outside world changes (the socket liveness flag),
because the source installs no handler for them.
-/

namespace SseChat

/-- The JSON payload emitted on "broadcast" (index.ts line 238):
`{ channelId, id, username, content, created_at }`.  `id` is the serial
id of the persisted row, not the SSE sequence number.  Body fields come
from `req.body` and may be absent (`Option`). -/
structure Msg where
  channelId : String
  id : Nat
  username : Option String
  content : Option String
  created_at : Nat
deriving DecidableEq, Repr

/-- One `res.write` on a streaming connection: the `event: init`
handshake (line 149), a `data:` frame (line 164), an `id:` line
(line 165), or the `:` keepalive comment (line 172). -/
inductive Frame where
  | init : Frame
  | data (payload : Msg) : Frame
  | idLine (n : Nat) : Frame
  | keepalive : Frame
deriving DecidableEq, Repr

/-- The closure state of one GET /events/:channelId request: the
"broadcast" listener registered on the channel's emitter.  `counter` is
the captured `let messageCounter` variable (line 152).  `joinedAt` is an
observation field recording the value `counter` was initialised with
(the hub counter at subscribe time); no transition reads it.
`intervalActive` models the `setInterval` handle (line 171) not having
been cleared; `connAlive` models the underlying socket still being open
(the code never reads it).  `frames` is everything written to this
connection, in order. -/
structure Subscriber where
  connId : Nat
  chanId : String
  counter : Nat
  joinedAt : Nat
  intervalActive : Bool
  connAlive : Bool
  frames : List Frame
deriving DecidableEq, Repr

/-- One value of the `eventEmitters` map: the emitter object (by
allocation number) and the map-stored `messageCounter`. -/
structure ChannelData where
  emitterId : Nat
  messageCounter : Nat
deriving DecidableEq, Repr

/-- A persisted row of the `messages` table. -/
structure StoredMsg where
  id : Nat
  content : Option String
  channelid : String
  username : Option String
  created_at : Nat
deriving DecidableEq, Repr

/-- A persisted row of the `channels` table. -/
structure Channel where
  id : Nat
  name : Option String
deriving DecidableEq, Repr

/-- The external Postgres store, as lists with serial counters. -/
structure Store where
  channels : List Channel
  messages : List StoredMsg
  nextChannelId : Nat
  nextMessageId : Nat
deriving DecidableEq, Repr

/-- The whole mutable state of the Node process (plus the `pubLog`
observation log). -/
structure ServerState where
  eventEmitters : List (String × ChannelData)
  listeners : List (Nat × List Subscriber)
  nextEmitterId : Nat
  nextConnId : Nat
  store : Store
  pubLog : List (Nat × Nat)
deriving DecidableEq, Repr

/-- Body tag of an attempted HTTP response. -/
inductive RespBody where
  | missingArg : RespBody
  | channelRow (id : Nat) (name : Option String) : RespBody
  | chatPosted : RespBody
  | channelNotFound : RespBody
  | okMsg : RespBody
  | empty : RespBody
  | stream : RespBody
deriving DecidableEq, Repr

/-- An attempted HTTP response: status code and body tag. -/
structure Response where
  status : Nat
  body : RespBody
deriving DecidableEq, Repr

/-- Lookup in an association list (JS `Map.get`). -/
def afind {α β : Type} [DecidableEq α] (k : α) : List (α × β) → Option β
  | [] => none
  | p :: rest => if p.1 = k then some p.2 else afind k rest

/-- Insert-or-replace in an association list (JS `Map.set`). -/
def aset {α β : Type} [DecidableEq α] (k : α) (v : β) : List (α × β) → List (α × β)
  | [] => [(k, v)]
  | p :: rest => if p.1 = k then (k, v) :: rest else p :: aset k v rest

/-- Remove a key from an association list (JS `Map.delete`). -/
def aerase {α β : Type} [DecidableEq α] (k : α) : List (α × β) → List (α × β)
  | [] => []
  | p :: rest => if p.1 = k then aerase k rest else p :: aerase k rest

/-- The "broadcast" listeners currently registered on emitter `e`. -/
def getListeners (e : Nat) (l : List (Nat × List Subscriber)) : List Subscriber :=
  (afind e l).getD []

/-- The SSE sequence numbers a connection has been sent (its `id:`
lines, in order). -/
def receivedIds (fs : List Frame) : List Nat :=
  fs.filterMap fun f =>
    match f with
    | Frame.idLine n => some n
    | _ => none

/-- The sequence of counter values recorded for emitter `e` in the
publish observation log, i.e. the ids assigned to its publishes in
order. -/
def pubIds (e : Nat) (log : List (Nat × Nat)) : List Nat :=
  log.filterMap fun p => if p.1 = e then some p.2 else none

/-- Incoming events: the four HTTP endpoints of index.ts that touch the
registry, plus the runtime events of a long-lived stream (keepalive
interval firing, client disconnect, server shutdown).  Path parameters
are `String` (express yields a non-empty string for a matched route);
body fields are `Option String`. -/
inductive Event where
  | postChannel (name : Option String) : Event
  | getEvents (channelId : String) (acceptStream : Bool) : Event
  | postMessage (channelId : String) (content : Option String)
      (username : Option String) : Event
  | deleteChannel (channelId : String) : Event
  | keepaliveTick (connId : Nat) : Event
  | clientDisconnect (connId : Nat) : Event
  | serverShutdown : Event
deriving DecidableEq, Repr

/-- One invocation of the "broadcast" listener (index.ts lines 163-169):
write the `data:` frame, write `id: <messageCounter>` using the
listener's OWN captured counter, then increment that counter.  (The
listener also re-`set`s the map entry; the handler below takes the net
effect: the last listener's write wins.) -/
def broadcastStep (payload : Msg) (s : Subscriber) : Subscriber :=
  { s with
    frames := s.frames ++ [Frame.data payload, Frame.idLine s.counter]
    counter := s.counter + 1 }

/-- JS truthiness of an optional request-body field: `!x` holds when
the field is absent or the empty string. -/
def isFalsy : Option String → Bool
  | none => true
  | some s => decide (s = "")

/-- POST /channel (index.ts lines 57-82).  A falsy `name` (absent or
empty, JS `!name`) sends a 400 but the source has no `return` there, so
the INSERT and the 200 are still attempted. -/
def postChannelHandler (σ : ServerState) (name : Option String) :
    ServerState × List Response :=
  let v400 : List Response :=
    if isFalsy name = true then [⟨400, RespBody.missingArg⟩] else []
  let cid := σ.store.nextChannelId
  ({ σ with
      store := { σ.store with
        channels := σ.store.channels ++ [⟨cid, name⟩]
        nextChannelId := cid + 1 } },
    v400 ++ [⟨200, RespBody.channelRow cid name⟩])

/-- GET /events/:channelId (index.ts lines 132-182).  With the
`text/event-stream` Accept header: write the handshake, then either
adopt the existing `{emitter, messageCounter}` for the channel or
create a fresh emitter with counter 1 and store it, then register a new
"broadcast" listener whose captured counter is the adopted value.
Without the header: respond `{msg:"OK"}`. -/
def getEventsHandler (σ : ServerState) (channelId : String)
    (acceptStream : Bool) : ServerState × List Response :=
  if acceptStream then
    let v400 : List Response :=
      if channelId = "" then [⟨400, RespBody.missingArg⟩] else []
    match afind channelId σ.eventEmitters with
    | some d =>
        let s : Subscriber :=
          ⟨σ.nextConnId, channelId, d.messageCounter, d.messageCounter,
            true, true, [Frame.init]⟩
        ({ σ with
            listeners :=
              aset d.emitterId (getListeners d.emitterId σ.listeners ++ [s])
                σ.listeners
            nextConnId := σ.nextConnId + 1 },
          v400 ++ [⟨200, RespBody.stream⟩])
    | none =>
        let e := σ.nextEmitterId
        let s : Subscriber := ⟨σ.nextConnId, channelId, 1, 1, true, true, [Frame.init]⟩
        ({ σ with
            eventEmitters := aset channelId ⟨e, 1⟩ σ.eventEmitters
            listeners := aset e (getListeners e σ.listeners ++ [s]) σ.listeners
            nextEmitterId := e + 1
            nextConnId := σ.nextConnId + 1 },
          v400 ++ [⟨200, RespBody.stream⟩])
  else (σ, [⟨200, RespBody.okMsg⟩])

/-- POST /message/:channelId (index.ts lines 211-241).  A falsy field
(`!channelId || !content || !username`: absent or empty string) sends a
400 but, with no `return`, the INSERT still runs; then the hub lookup:
absent sends a 404 (and the `emitter?.emit` is a no-op), present emits
"broadcast" to every listener in registration order; either way a 201
is then attempted. -/
def postMessageHandler (σ : ServerState) (channelId : String)
    (content username : Option String) : ServerState × List Response :=
  let v400 : List Response :=
    if channelId = "" ∨ isFalsy content = true ∨ isFalsy username = true
    then [⟨400, RespBody.missingArg⟩] else []
  let msgId := σ.store.nextMessageId
  let row : StoredMsg := ⟨msgId, content, channelId, username, msgId⟩
  let store' := { σ.store with
    messages := σ.store.messages ++ [row]
    nextMessageId := msgId + 1 }
  match afind channelId σ.eventEmitters with
  | none =>
      ({ σ with store := store' },
        v400 ++ [⟨404, RespBody.channelNotFound⟩, ⟨201, RespBody.chatPosted⟩])
  | some d =>
      let payload : Msg := ⟨channelId, msgId, username, content, msgId⟩
      let ls := getListeners d.emitterId σ.listeners
      let ls' := ls.map (broadcastStep payload)
      let em' := match ls.getLast? with
        | none => σ.eventEmitters
        | some s => aset channelId ⟨d.emitterId, s.counter + 1⟩ σ.eventEmitters
      ({ σ with
          store := store'
          eventEmitters := em'
          listeners := aset d.emitterId ls' σ.listeners
          pubLog :=
            if ls.isEmpty then σ.pubLog
            else σ.pubLog ++ [(d.emitterId, d.messageCounter)] },
        v400 ++ [⟨201, RespBody.chatPosted⟩])

/-- DELETE /channel/:channelId (index.ts lines 103-130): delete the
channel's rows and `eventEmitters.delete(channelId)`.  The emitter
object itself, its listeners and their intervals are untouched: the
source never emits "close". -/
def deleteChannelHandler (σ : ServerState) (channelId : String) :
    ServerState × List Response :=
  if channelId = "" then (σ, [⟨204, RespBody.empty⟩])
  else
    ({ σ with
        store := { σ.store with
          messages := σ.store.messages.filter (fun m => !(m.channelid = channelId : Bool))
          channels := σ.store.channels.filter (fun ch => !(toString ch.id = channelId : Bool)) }
        eventEmitters := aerase channelId σ.eventEmitters },
      [⟨204, RespBody.empty⟩])

/-- The keepalive interval of one connection firing (index.ts lines
171-173): write the `:` comment frame.  Nothing else is touched. -/
def tickSub (k : Nat) (s : Subscriber) : Subscriber :=
  if s.connId = k ∧ s.intervalActive
  then { s with frames := s.frames ++ [Frame.keepalive] }
  else s

/-- State effect of `keepaliveTick`. -/
def keepaliveTickHandler (σ : ServerState) (k : Nat) :
    ServerState × List Response :=
  ({ σ with listeners := σ.listeners.map (fun p => (p.1, p.2.map (tickSub k))) }, [])

/-- A client dropping its connection.  index.ts installs no
`req.on("close")` handler, so the server state does not change; only
the socket liveness flag flips. -/
def disconnectSub (k : Nat) (s : Subscriber) : Subscriber :=
  if s.connId = k then { s with connAlive := false } else s

/-- State effect of `clientDisconnect`. -/
def clientDisconnectHandler (σ : ServerState) (k : Nat) :
    ServerState × List Response :=
  ({ σ with listeners := σ.listeners.map (fun p => (p.1, p.2.map (disconnectSub k))) }, [])

/-- One event of the whole server. index.ts installs no shutdown hook,
so `serverShutdown` runs no cleanup at all. -/
def step (σ : ServerState) : Event → ServerState × List Response
  | Event.postChannel name => postChannelHandler σ name
  | Event.getEvents c a => getEventsHandler σ c a
  | Event.postMessage c ct un => postMessageHandler σ c ct un
  | Event.deleteChannel c => deleteChannelHandler σ c
  | Event.keepaliveTick k => keepaliveTickHandler σ k
  | Event.clientDisconnect k => clientDisconnectHandler σ k
  | Event.serverShutdown => (σ, [])

/-- The state reached by one event, discarding the response. -/
def stepState (σ : ServerState) (ev : Event) : ServerState :=
  (step σ ev).1

/-- The freshly booted process: empty registry, empty store (serial ids
start at 1 as in Postgres). -/
def initState : ServerState :=
  ⟨[], [], 0, 0, ⟨[], [], 1, 1⟩, []⟩

/-- The state after a whole trace of events. -/
def run (t : List Event) : ServerState :=
  t.foldl stepState initState

/-- The keepalive period hard-coded in the `setInterval` call
(index.ts line 173), in milliseconds. -/
def keepaliveIntervalMs : Nat := 10000

/-- The payload object built by POST /message/:channelId (index.ts line
238), given the pre-request state. -/
def mkPayload (σ : ServerState) (c : String) (content username : Option String) : Msg :=
  ⟨c, σ.store.nextMessageId, username, content, σ.store.nextMessageId⟩

/-- Per-channel invariant of a reachable state: the map entry points at
an allocated emitter with at least one listener; every listener's
captured counter agrees with the map-stored counter; a listener has
received exactly the sequence ids from its join value up to the current
counter; and the publish log for the emitter is exactly 1..counter-1. -/
def ChanInv (ls : List (Nat × List Subscriber)) (next : Nat)
    (log : List (Nat × Nat)) (c : String) (d : ChannelData) : Prop :=
  d.emitterId < next ∧
  1 ≤ d.messageCounter ∧
  getListeners d.emitterId ls ≠ [] ∧
  (∀ s ∈ getListeners d.emitterId ls,
      s.chanId = c ∧ s.counter = d.messageCounter ∧
      1 ≤ s.joinedAt ∧ s.joinedAt ≤ d.messageCounter ∧
      receivedIds s.frames = List.range' s.joinedAt (d.messageCounter - s.joinedAt)) ∧
  pubIds d.emitterId log = List.range' 1 (d.messageCounter - 1)

/-- Global invariant: every registry entry satisfies `ChanInv`, distinct
channels own distinct emitters, and unallocated emitter numbers have no
listeners and no publishes. -/
def Inv (σ : ServerState) : Prop :=
  (∀ c d, afind c σ.eventEmitters = some d →
      ChanInv σ.listeners σ.nextEmitterId σ.pubLog c d) ∧
  (∀ c c' d d', afind c σ.eventEmitters = some d →
      afind c' σ.eventEmitters = some d' → d.emitterId = d'.emitterId → c = c') ∧
  (∀ e, σ.nextEmitterId ≤ e →
      getListeners e σ.listeners = [] ∧ pubIds e σ.pubLog = [])

/-- Well-formed request: express only dispatches `/x/:param` routes when
the path parameter is non-empty, so traces produced by real HTTP traffic
never carry an empty path parameter. -/
def evWf : Event → Bool
  | Event.getEvents c _ => decide (c ≠ "")
  | Event.postMessage c _ _ => decide (c ≠ "")
  | Event.deleteChannel c => decide (c ≠ "")
  | _ => true

/-- Modelled from the spec: the registry invariant stated in its own
terms.  A hub for channel `c` should exist exactly when some subscribe
(`GET /events/:c` with the stream Accept header) has occurred and no
deletion of `c` has occurred since; this folds that condition over the
trace. -/
def hubStep (c : String) (b : Bool) : Event → Bool
  | Event.getEvents c' a => if a = true then (if c' = c then true else b) else b
  | Event.deleteChannel c' => if c' = c then false else b
  | _ => b

/-- Modelled from the spec: `hubAlive c t` is true iff trace `t` contains
a subscribe to `c` with no later deletion of `c`. -/
def hubAlive (c : String) (t : List Event) : Bool :=
  t.foldl (hubStep c) false

theorem afind_aset_self {α β : Type} [DecidableEq α] (k : α) (v : β) :
    ∀ l : List (α × β), afind k (aset k v l) = some v := by
  intro l
  induction l with
  | nil => simp [afind, aset]
  | cons p rest ih =>
      by_cases h : p.1 = k
      · simp [aset, h, afind]
      · simp [aset, h, afind, ih]

theorem afind_aset_ne {α β : Type} [DecidableEq α] {k k' : α} (v : β)
    (h : k' ≠ k) : ∀ l : List (α × β), afind k' (aset k v l) = afind k' l := by
  intro l
  have hkk : ¬(k = k') := Ne.symm h
  induction l with
  | nil => simp [afind, aset, hkk]
  | cons p rest ih =>
      by_cases hp : p.1 = k
      · have hpk' : ¬(p.1 = k') := by rw [hp]; exact hkk
        simp [aset, hp, afind, hkk, hpk']
      · simp [aset, hp, afind, ih]

theorem afind_aerase_self {α β : Type} [DecidableEq α] (k : α) :
    ∀ l : List (α × β), afind k (aerase k l) = none := by
  intro l
  induction l with
  | nil => simp [afind, aerase]
  | cons p rest ih =>
      by_cases h : p.1 = k
      · simp [aerase, h, ih]
      · simp [aerase, h, afind, ih]

theorem afind_aerase_ne {α β : Type} [DecidableEq α] {k k' : α}
    (h : k' ≠ k) : ∀ l : List (α × β), afind k' (aerase k l) = afind k' l := by
  intro l
  have hkk : ¬(k = k') := Ne.symm h
  induction l with
  | nil => simp [aerase]
  | cons p rest ih =>
      by_cases hp : p.1 = k
      · have hpk' : ¬(p.1 = k') := by rw [hp]; exact hkk
        simp [aerase, hp, afind, hpk', hkk, ih]
      · simp [aerase, hp, afind, ih]

theorem afind_map_snd {α β γ : Type} [DecidableEq α] (k : α) (f : β → γ) :
    ∀ l : List (α × β),
      afind k (l.map (fun p => (p.1, f p.2))) = (afind k l).map f := by
  intro l
  induction l with
  | nil => simp [afind]
  | cons p rest ih =>
      by_cases h : p.1 = k
      · simp [afind, h]
      · simp [afind, h, ih]

theorem getListeners_aset_self (e : Nat) (v : List Subscriber)
    (l : List (Nat × List Subscriber)) : getListeners e (aset e v l) = v := by
  simp [getListeners, afind_aset_self]

theorem getListeners_aset_ne {e e' : Nat} (v : List Subscriber)
    (l : List (Nat × List Subscriber)) (h : e' ≠ e) :
    getListeners e' (aset e v l) = getListeners e' l := by
  simp [getListeners, afind_aset_ne v h]

theorem getListeners_map (e : Nat) (f : Subscriber → Subscriber)
    (l : List (Nat × List Subscriber)) :
    getListeners e (l.map (fun p => (p.1, p.2.map f))) = (getListeners e l).map f := by
  unfold getListeners
  rw [afind_map_snd]
  cases afind e l <;> simp

theorem receivedIds_append (fs gs : List Frame) :
    receivedIds (fs ++ gs) = receivedIds fs ++ receivedIds gs := by
  simp [receivedIds]

theorem receivedIds_delivery (payload : Msg) (n : Nat) :
    receivedIds [Frame.data payload, Frame.idLine n] = [n] := by
  simp [receivedIds]

theorem receivedIds_keepalive : receivedIds [Frame.keepalive] = [] := by
  simp [receivedIds]

theorem pubIds_append (e : Nat) (l₁ l₂ : List (Nat × Nat)) :
    pubIds e (l₁ ++ l₂) = pubIds e l₁ ++ pubIds e l₂ := by
  simp [pubIds]

theorem pubIds_single_self (e n : Nat) : pubIds e [(e, n)] = [n] := by
  simp [pubIds]

theorem pubIds_single_ne {e e' : Nat} (n : Nat) (h : e' ≠ e) :
    pubIds e' [(e, n)] = [] := by
  simp [pubIds, Ne.symm h]

theorem isFalsy_some_of_ne {s : String} (h : s ≠ "") :
    isFalsy (some s) = false := by
  simp [isFalsy, h]

theorem chanInv_map_listeners {f : Subscriber → Subscriber}
    (hfc : ∀ s, (f s).chanId = s.chanId)
    (hfn : ∀ s, (f s).counter = s.counter)
    (hfj : ∀ s, (f s).joinedAt = s.joinedAt)
    (hfr : ∀ s, receivedIds (f s).frames = receivedIds s.frames)
    {ls : List (Nat × List Subscriber)} {next : Nat} {log : List (Nat × Nat)}
    {c : String} {d : ChannelData} (h : ChanInv ls next log c d) :
    ChanInv (ls.map (fun p => (p.1, p.2.map f))) next log c d := by
  obtain ⟨he, hn, hne, hs, hp⟩ := h
  refine ⟨he, hn, ?_, ?_, hp⟩
  · rw [getListeners_map]
    simpa using hne
  · intro s' hs'
    rw [getListeners_map] at hs'
    obtain ⟨s, hsm, rfl⟩ := List.mem_map.mp hs'
    obtain ⟨q1, q2, q3, q4, q5⟩ := hs s hsm
    exact ⟨by rw [hfc, q1], by rw [hfn, q2], by rw [hfj]; exact q3,
      by rw [hfj]; exact q4, by rw [hfr, hfj, q5]⟩

theorem tickSub_connId (k : Nat) (s : Subscriber) :
    (tickSub k s).connId = s.connId := by
  unfold tickSub; split <;> rfl

theorem tickSub_chanId (k : Nat) (s : Subscriber) :
    (tickSub k s).chanId = s.chanId := by
  unfold tickSub; split <;> rfl

theorem tickSub_counter (k : Nat) (s : Subscriber) :
    (tickSub k s).counter = s.counter := by
  unfold tickSub; split <;> rfl

theorem tickSub_joinedAt (k : Nat) (s : Subscriber) :
    (tickSub k s).joinedAt = s.joinedAt := by
  unfold tickSub; split <;> rfl

theorem tickSub_receivedIds (k : Nat) (s : Subscriber) :
    receivedIds (tickSub k s).frames = receivedIds s.frames := by
  unfold tickSub
  split
  · simp [receivedIds_append, receivedIds_keepalive]
  · rfl

theorem disconnectSub_chanId (k : Nat) (s : Subscriber) :
    (disconnectSub k s).chanId = s.chanId := by
  unfold disconnectSub; split <;> rfl

theorem disconnectSub_counter (k : Nat) (s : Subscriber) :
    (disconnectSub k s).counter = s.counter := by
  unfold disconnectSub; split <;> rfl

theorem disconnectSub_joinedAt (k : Nat) (s : Subscriber) :
    (disconnectSub k s).joinedAt = s.joinedAt := by
  unfold disconnectSub; split <;> rfl

theorem disconnectSub_receivedIds (k : Nat) (s : Subscriber) :
    receivedIds (disconnectSub k s).frames = receivedIds s.frames := by
  unfold disconnectSub; split <;> rfl

theorem inv_postChannel (σ : ServerState) (name : Option String)
    (h : Inv σ) : Inv (postChannelHandler σ name).1 :=
  h

theorem inv_keepaliveTick (σ : ServerState) (k : Nat) (h : Inv σ) :
    Inv (keepaliveTickHandler σ k).1 := by
  obtain ⟨h1, h2, h3⟩ := h
  refine ⟨?_, h2, ?_⟩
  · intro c d hd
    exact chanInv_map_listeners (tickSub_chanId k) (tickSub_counter k)
      (tickSub_joinedAt k) (tickSub_receivedIds k) (h1 c d hd)
  · intro e he
    refine ⟨?_, (h3 e he).2⟩
    show getListeners e (σ.listeners.map (fun p => (p.1, p.2.map (tickSub k)))) = []
    rw [getListeners_map, (h3 e he).1]
    rfl

theorem inv_clientDisconnect (σ : ServerState) (k : Nat) (h : Inv σ) :
    Inv (clientDisconnectHandler σ k).1 := by
  obtain ⟨h1, h2, h3⟩ := h
  refine ⟨?_, h2, ?_⟩
  · intro c d hd
    exact chanInv_map_listeners (disconnectSub_chanId k) (disconnectSub_counter k)
      (disconnectSub_joinedAt k) (disconnectSub_receivedIds k) (h1 c d hd)
  · intro e he
    refine ⟨?_, (h3 e he).2⟩
    show getListeners e (σ.listeners.map (fun p => (p.1, p.2.map (disconnectSub k)))) = []
    rw [getListeners_map, (h3 e he).1]
    rfl

theorem getEvents_false_state (σ : ServerState) (c0 : String) :
    (getEventsHandler σ c0 false).1 = σ :=
  rfl

theorem getEvents_some_state (σ : ServerState) (c0 : String) {d : ChannelData}
    (hd : afind c0 σ.eventEmitters = some d) :
    (getEventsHandler σ c0 true).1 =
      { σ with
        listeners := aset d.emitterId
          (getListeners d.emitterId σ.listeners ++
            [⟨σ.nextConnId, c0, d.messageCounter, d.messageCounter, true, true,
              [Frame.init]⟩])
          σ.listeners
        nextConnId := σ.nextConnId + 1 } := by
  simp [getEventsHandler, hd]

theorem getEvents_none_state (σ : ServerState) (c0 : String)
    (hd : afind c0 σ.eventEmitters = none) :
    (getEventsHandler σ c0 true).1 =
      { σ with
        eventEmitters := aset c0 ⟨σ.nextEmitterId, 1⟩ σ.eventEmitters
        listeners := aset σ.nextEmitterId
          (getListeners σ.nextEmitterId σ.listeners ++
            [⟨σ.nextConnId, c0, 1, 1, true, true, [Frame.init]⟩])
          σ.listeners
        nextEmitterId := σ.nextEmitterId + 1
        nextConnId := σ.nextConnId + 1 } := by
  simp [getEventsHandler, hd]

theorem postMessage_none_state (σ : ServerState) (c0 : String)
    (ct un : Option String) (hd : afind c0 σ.eventEmitters = none) :
    (postMessageHandler σ c0 ct un).1 =
      { σ with store := { σ.store with
          messages := σ.store.messages ++
            [⟨σ.store.nextMessageId, ct, c0, un, σ.store.nextMessageId⟩]
          nextMessageId := σ.store.nextMessageId + 1 } } := by
  simp [postMessageHandler, hd]

theorem postMessage_some_state (σ : ServerState) (c0 : String)
    (ct un : Option String) {d : ChannelData} {slast : Subscriber}
    (hd : afind c0 σ.eventEmitters = some d)
    (hlast : (getListeners d.emitterId σ.listeners).getLast? = some slast) :
    (postMessageHandler σ c0 ct un).1 =
      { σ with
        store := { σ.store with
          messages := σ.store.messages ++
            [⟨σ.store.nextMessageId, ct, c0, un, σ.store.nextMessageId⟩]
          nextMessageId := σ.store.nextMessageId + 1 }
        eventEmitters := aset c0 ⟨d.emitterId, slast.counter + 1⟩ σ.eventEmitters
        listeners := aset d.emitterId
          ((getListeners d.emitterId σ.listeners).map
            (broadcastStep ⟨c0, σ.store.nextMessageId, un, ct, σ.store.nextMessageId⟩))
          σ.listeners
        pubLog := σ.pubLog ++ [(d.emitterId, d.messageCounter)] } := by
  have hne : getListeners d.emitterId σ.listeners ≠ [] := by
    intro hnil
    rw [hnil] at hlast
    exact Option.noConfusion hlast
  have hie : (getListeners d.emitterId σ.listeners).isEmpty = false := by
    simpa [List.isEmpty_iff] using hne
  simp [postMessageHandler, hd, hlast, hie]

theorem deleteChannel_state (σ : ServerState) (c0 : String) (hc : c0 ≠ "") :
    (deleteChannelHandler σ c0).1 =
      { σ with
        store := { σ.store with
          messages := σ.store.messages.filter (fun m => !(m.channelid = c0 : Bool))
          channels := σ.store.channels.filter (fun ch => !(toString ch.id = c0 : Bool)) }
        eventEmitters := aerase c0 σ.eventEmitters } := by
  simp [deleteChannelHandler, hc]

theorem inv_getEvents (σ : ServerState) (c0 : String) (a : Bool) (h : Inv σ) :
    Inv (getEventsHandler σ c0 a).1 := by
  obtain ⟨h1, h2, h3⟩ := h
  cases a with
  | false => exact ⟨h1, h2, h3⟩
  | true =>
    cases hd : afind c0 σ.eventEmitters with
    | some d =>
      rw [getEvents_some_state σ c0 hd]
      obtain ⟨hde, hdn, hdne, hds, hdp⟩ := h1 c0 d hd
      refine ⟨?_, h2, ?_⟩
      · intro c1 d1 hd1
        simp only at hd1 ⊢
        obtain ⟨h1e, h1n, h1ne, h1s, h1p⟩ := h1 c1 d1 hd1
        by_cases heq : d1.emitterId = d.emitterId
        · have hc1 : c1 = c0 := h2 c1 c0 d1 d hd1 hd heq
          subst hc1
          have hd1d : d1 = d := by
            rw [hd1] at hd
            exact Option.some.inj hd
          subst hd1d
          rw [heq] at h1ne h1s ⊢
          refine ⟨h1e, h1n, ?_, ?_, h1p⟩
          · rw [getListeners_aset_self]
            simp
          · rw [getListeners_aset_self]
            intro s hs
            rcases List.mem_append.mp hs with hs | hs
            · exact h1s s hs
            · rcases List.mem_singleton.mp hs with rfl
              exact ⟨rfl, rfl, h1n, le_refl _, by simp [receivedIds]⟩
        · refine ⟨h1e, h1n, ?_, ?_, h1p⟩
          · rw [getListeners_aset_ne _ _ heq]
            exact h1ne
          · rw [getListeners_aset_ne _ _ heq]
            exact h1s
      · intro e he
        simp only at he ⊢
        have hee : e ≠ d.emitterId := by omega
        rw [getListeners_aset_ne _ _ hee]
        exact h3 e he
    | none =>
      rw [getEvents_none_state σ c0 hd]
      have hLnil : getListeners σ.nextEmitterId σ.listeners = [] :=
        (h3 σ.nextEmitterId (le_refl _)).1
      have hPnil : pubIds σ.nextEmitterId σ.pubLog = [] :=
        (h3 σ.nextEmitterId (le_refl _)).2
      refine ⟨?_, ?_, ?_⟩
      · intro c1 d1 hd1
        simp only at hd1 ⊢
        by_cases hc1 : c1 = c0
        · subst hc1
          rw [afind_aset_self] at hd1
          rcases Option.some.inj hd1 with rfl
          refine ⟨?_, le_refl 1, ?_, ?_, ?_⟩
          · simp
          · simp only [getListeners_aset_self, hLnil]
            simp
          · simp only [getListeners_aset_self, hLnil]
            intro s hs
            rcases List.mem_singleton.mp (by simpa using hs) with rfl
            exact ⟨rfl, rfl, le_refl 1, le_refl 1, by simp [receivedIds]⟩
          · simpa using hPnil
        · rw [afind_aset_ne _ hc1] at hd1
          obtain ⟨h1e, h1n, h1ne, h1s, h1p⟩ := h1 c1 d1 hd1
          have hee : d1.emitterId ≠ σ.nextEmitterId := by omega
          refine ⟨by omega, h1n, ?_, ?_, h1p⟩
          · rw [getListeners_aset_ne _ _ hee]
            exact h1ne
          · rw [getListeners_aset_ne _ _ hee]
            exact h1s
      · intro c1 c2 d1 d2 hd1 hd2 hee
        simp only at hd1 hd2
        by_cases hc1 : c1 = c0 <;> by_cases hc2 : c2 = c0
        · rw [hc1, hc2]
        · subst hc1
          rw [afind_aset_self] at hd1
          rcases Option.some.inj hd1 with rfl
          rw [afind_aset_ne _ hc2] at hd2
          have := (h1 c2 d2 hd2).1
          simp only at hee
          omega
        · subst hc2
          rw [afind_aset_self] at hd2
          rcases Option.some.inj hd2 with rfl
          rw [afind_aset_ne _ hc1] at hd1
          have := (h1 c1 d1 hd1).1
          simp only at hee
          omega
        · rw [afind_aset_ne _ hc1] at hd1
          rw [afind_aset_ne _ hc2] at hd2
          exact h2 c1 c2 d1 d2 hd1 hd2 hee
      · intro e he
        simp only at he ⊢
        have hee : e ≠ σ.nextEmitterId := by omega
        rw [getListeners_aset_ne _ _ hee]
        exact h3 e (by omega)

theorem range'_snoc (a b : Nat) (h : a ≤ b) :
    List.range' a (b - a) ++ [b] = List.range' a (b + 1 - a) := by
  have h1 : b + 1 - a = (b - a) + 1 := by omega
  have h2 : a + (b - a) = b := by omega
  rw [h1, List.range'_1_concat, h2]

theorem inv_postMessage (σ : ServerState) (c0 : String) (ct un : Option String)
    (h : Inv σ) : Inv (postMessageHandler σ c0 ct un).1 := by
  obtain ⟨h1, h2, h3⟩ := h
  cases hd : afind c0 σ.eventEmitters with
  | none =>
    rw [postMessage_none_state σ c0 ct un hd]
    exact ⟨h1, h2, h3⟩
  | some d =>
    obtain ⟨hde, hdn, hdne, hds, hdp⟩ := h1 c0 d hd
    have hlast : (getListeners d.emitterId σ.listeners).getLast? =
        some ((getListeners d.emitterId σ.listeners).getLast hdne) :=
      List.getLast?_eq_getLast _ hdne
    have hsc : ((getListeners d.emitterId σ.listeners).getLast hdne).counter =
        d.messageCounter :=
      (hds _ (List.getLast_mem hdne)).2.1
    rw [postMessage_some_state σ c0 ct un hd hlast, hsc]
    refine ⟨?_, ?_, ?_⟩
    · intro c1 d1 hd1
      simp only at hd1 ⊢
      by_cases hc1 : c1 = c0
      · subst hc1
        rw [afind_aset_self] at hd1
        rcases Option.some.inj hd1 with rfl
        refine ⟨hde, Nat.succ_le_succ (Nat.zero_le _), ?_, ?_, ?_⟩
        · rw [getListeners_aset_self]
          simpa using hdne
        · rw [getListeners_aset_self]
          intro s' hs'
          obtain ⟨s, hsm, rfl⟩ := List.mem_map.mp hs'
          obtain ⟨q1, q2, q3, q4, q5⟩ := hds s hsm
          refine ⟨q1, ?_, q3, by simp only [broadcastStep]; omega, ?_⟩
          · simp [broadcastStep, q2]
          · show receivedIds (s.frames ++ [Frame.data _, Frame.idLine s.counter]) =
              List.range' (broadcastStep _ s).joinedAt _
            rw [receivedIds_append, receivedIds_delivery, q5, q2]
            show List.range' s.joinedAt _ ++ _ =
              List.range' s.joinedAt (d.messageCounter + 1 - s.joinedAt)
            exact range'_snoc s.joinedAt d.messageCounter q4
        · rw [pubIds_append, pubIds_single_self, hdp]
          exact range'_snoc 1 d.messageCounter hdn
      · rw [afind_aset_ne _ hc1] at hd1
        obtain ⟨h1e, h1n, h1ne, h1s, h1p⟩ := h1 c1 d1 hd1
        have hee : d1.emitterId ≠ d.emitterId := by
          intro hcon
          exact hc1 (h2 c1 c0 d1 d hd1 hd hcon)
        refine ⟨h1e, h1n, ?_, ?_, ?_⟩
        · rw [getListeners_aset_ne _ _ hee]
          exact h1ne
        · rw [getListeners_aset_ne _ _ hee]
          exact h1s
        · rw [pubIds_append, pubIds_single_ne _ hee, List.append_nil]
          exact h1p
    · intro c1 c2 d1 d2 hd1 hd2 hee
      simp only at hd1 hd2
      by_cases hc1 : c1 = c0 <;> by_cases hc2 : c2 = c0
      · rw [hc1, hc2]
      · subst hc1
        rw [afind_aset_self] at hd1
        rcases Option.some.inj hd1 with rfl
        rw [afind_aset_ne _ hc2] at hd2
        simp only at hee
        exact absurd (h2 c1 c2 d d2 hd hd2 hee).symm hc2
      · subst hc2
        rw [afind_aset_self] at hd2
        rcases Option.some.inj hd2 with rfl
        rw [afind_aset_ne _ hc1] at hd1
        simp only at hee
        exact absurd (h2 c1 c2 d1 d hd1 hd hee) hc1
      · rw [afind_aset_ne _ hc1] at hd1
        rw [afind_aset_ne _ hc2] at hd2
        exact h2 c1 c2 d1 d2 hd1 hd2 hee
    · intro e he
      simp only at he ⊢
      have hee : e ≠ d.emitterId := by omega
      rw [getListeners_aset_ne _ _ hee, pubIds_append, pubIds_single_ne _ hee,
        List.append_nil]
      exact h3 e he

theorem inv_deleteChannel (σ : ServerState) (c0 : String) (h : Inv σ) :
    Inv (deleteChannelHandler σ c0).1 := by
  obtain ⟨h1, h2, h3⟩ := h
  by_cases hc : c0 = ""
  · have hstate : (deleteChannelHandler σ c0).1 = σ := by
      simp [deleteChannelHandler, hc]
    rw [hstate]
    exact ⟨h1, h2, h3⟩
  · rw [deleteChannel_state σ c0 hc]
    have transport : ∀ c1 d1, afind c1 (aerase c0 σ.eventEmitters) = some d1 →
        afind c1 σ.eventEmitters = some d1 := by
      intro c1 d1 hd1
      by_cases hc1 : c1 = c0
      · rw [hc1, afind_aerase_self] at hd1
        exact absurd hd1 (Option.noConfusion ·)
      · rw [afind_aerase_ne hc1] at hd1
        exact hd1
    refine ⟨?_, ?_, ?_⟩
    · intro c1 d1 hd1
      exact h1 c1 d1 (transport c1 d1 hd1)
    · intro c1 c2 d1 d2 hd1 hd2 hee
      exact h2 c1 c2 d1 d2 (transport c1 d1 hd1) (transport c2 d2 hd2) hee
    · exact h3

theorem inv_step (σ : ServerState) (ev : Event) (h : Inv σ) :
    Inv (stepState σ ev) := by
  cases ev with
  | postChannel name => exact inv_postChannel σ name h
  | getEvents c a => exact inv_getEvents σ c a h
  | postMessage c ct un => exact inv_postMessage σ c ct un h
  | deleteChannel c => exact inv_deleteChannel σ c h
  | keepaliveTick k => exact inv_keepaliveTick σ k h
  | clientDisconnect k => exact inv_clientDisconnect σ k h
  | serverShutdown => exact h

theorem inv_initState : Inv initState := by
  refine ⟨?_, ?_, ?_⟩
  · intro c d hd
    exact absurd hd (Option.noConfusion ·)
  · intro c c' d d' hd
    exact absurd hd (Option.noConfusion ·)
  · intro e _
    exact ⟨rfl, rfl⟩

theorem inv_foldl : ∀ (t : List Event) (σ : ServerState), Inv σ →
    Inv (t.foldl stepState σ)
  | [], _, h => h
  | ev :: rest, σ, h => inv_foldl rest (stepState σ ev) (inv_step σ ev h)

/-- Every state the server can reach satisfies the global invariant. -/
theorem inv_run (t : List Event) : Inv (run t) :=
  inv_foldl t initState inv_initState

theorem hub_presence_step (σ : ServerState) (ev : Event) (c : String)
    (hwf : evWf ev = true) :
    (afind c (stepState σ ev).eventEmitters).isSome
      = hubStep c ((afind c σ.eventEmitters).isSome) ev := by
  cases ev with
  | postChannel name => rfl
  | serverShutdown => rfl
  | keepaliveTick k => rfl
  | clientDisconnect k => rfl
  | getEvents c' a =>
      cases a with
      | false => rfl
      | true =>
        show (afind c ((getEventsHandler σ c' true).1.eventEmitters)).isSome = _
        cases hd : afind c' σ.eventEmitters with
        | some d =>
            rw [getEvents_some_state σ c' hd]
            by_cases hcc : c' = c
            · subst hcc
              simp [hubStep, hd]
            · simp [hubStep, hcc]
        | none =>
            rw [getEvents_none_state σ c' hd]
            by_cases hcc : c' = c
            · subst hcc
              simp [hubStep, afind_aset_self]
            · simp [hubStep, hcc, afind_aset_ne _ (Ne.symm hcc)]
  | postMessage c' ct un =>
      show (afind c ((postMessageHandler σ c' ct un).1.eventEmitters)).isSome = _
      cases hd : afind c' σ.eventEmitters with
      | none =>
          rw [postMessage_none_state σ c' ct un hd]
          rfl
      | some d =>
          cases hlast : (getListeners d.emitterId σ.listeners).getLast? with
          | none =>
              simp only [postMessageHandler, hd, hlast]
              rfl
          | some slast =>
              rw [postMessage_some_state σ c' ct un hd hlast]
              by_cases hcc : c' = c
              · subst hcc
                simp [hubStep, hd, afind_aset_self]
              · simp [hubStep, hcc, afind_aset_ne _ (Ne.symm hcc)]
  | deleteChannel c' =>
      have hc' : c' ≠ "" := of_decide_eq_true hwf
      show (afind c ((deleteChannelHandler σ c').1.eventEmitters)).isSome = _
      rw [deleteChannel_state σ c' hc']
      by_cases hcc : c' = c
      · subst hcc
        simp [hubStep, afind_aerase_self]
      · simp [hubStep, hcc, afind_aerase_ne (Ne.symm hcc)]

theorem hub_presence_foldl : ∀ (t : List Event) (σ : ServerState),
    t.all evWf = true → ∀ c : String,
    (afind c ((t.foldl stepState σ).eventEmitters)).isSome
      = t.foldl (hubStep c) ((afind c σ.eventEmitters).isSome)
  | [], _, _, _ => rfl
  | ev :: rest, σ, hwf, c => by
      simp only [List.foldl_cons]
      simp only [List.all_cons, Bool.and_eq_true] at hwf
      rw [hub_presence_foldl rest (stepState σ ev) hwf.2 c,
        hub_presence_step σ ev c hwf.1]

/-- C1: for every publish on a channel's hub in any reachable state,
every subscriber present in the hub's listener set at that moment
receives the identical pair: the same `data:` payload and the same
`id:` value, namely the hub's stored `messageCounter` — even though the
source lets every listener write its own captured counter, the
invariant keeps all captured counters equal to the hub's stored one, so
one publish puts the same id on every connection. -/
theorem publish_same_id_payload_all_subscribers (t : List Event) (c : String)
    (d : ChannelData) (content username : Option String)
    (hd : afind c (run t).eventEmitters = some d) :
    getListeners d.emitterId
        (stepState (run t) (Event.postMessage c content username)).listeners
      = (getListeners d.emitterId (run t).listeners).map
          (fun s => { s with
            frames := s.frames ++
              [Frame.data (mkPayload (run t) c content username),
               Frame.idLine d.messageCounter]
            counter := d.messageCounter + 1 }) := by
  obtain ⟨h1, h2, h3⟩ := inv_run t
  obtain ⟨hde, hdn, hdne, hds, hdp⟩ := h1 c d hd
  have hlast := List.getLast?_eq_getLast _ hdne
  show getListeners d.emitterId
      (postMessageHandler (run t) c content username).1.listeners = _
  rw [postMessage_some_state (run t) c content username hd hlast]
  simp only
  rw [getListeners_aset_self]
  apply List.map_congr_left
  intro s hs
  have q2 := (hds s hs).2.1
  simp [broadcastStep, mkPayload, q2]

theorem publish_same_id_payload_all_subscribers_witness :
    getListeners 0 (stepState (run [Event.getEvents "k" true])
        (Event.postMessage "k" (some "m") (some "u"))).listeners
      = (getListeners 0 (run [Event.getEvents "k" true]).listeners).map
          (fun s => { s with
            frames := s.frames ++
              [Frame.data (mkPayload (run [Event.getEvents "k" true]) "k"
                  (some "m") (some "u")),
               Frame.idLine 1]
            counter := 2 }) :=
  publish_same_id_payload_all_subscribers [Event.getEvents "k" true] "k"
    ⟨0, 1⟩ (some "m") (some "u") (by decide)

/-- C2: in every reachable state, a channel's hub entry with counter `n`
has seen exactly the publishes logged with ids 1, 2, ..., n-1 in that
order, so the Nth publish on the hub was assigned id N, the counter
started at 1 when the hub was created, and ids are strictly increasing
across publishes on that hub. -/
theorem nth_publish_id_eq_n (t : List Event) (c : String) (d : ChannelData)
    (hd : afind c (run t).eventEmitters = some d) :
    1 ≤ d.messageCounter ∧
    pubIds d.emitterId (run t).pubLog
      = List.range' 1 (d.messageCounter - 1) := by
  obtain ⟨h1, _, _⟩ := inv_run t
  obtain ⟨_, hdn, _, _, hdp⟩ := h1 c d hd
  exact ⟨hdn, hdp⟩

theorem nth_publish_id_eq_n_witness :
    1 ≤ (3 : Nat) ∧
    pubIds 0 (run [Event.getEvents "a" true,
      Event.postMessage "a" (some "x") (some "y"),
      Event.postMessage "a" (some "z") (some "w")]).pubLog
      = List.range' 1 2 :=
  nth_publish_id_eq_n [Event.getEvents "a" true,
      Event.postMessage "a" (some "x") (some "y"),
      Event.postMessage "a" (some "z") (some "w")] "a" ⟨0, 3⟩ (by decide)

/-- C7: in every reachable state, every subscriber on a channel's hub
has received exactly the sequence ids from `joinedAt` (the hub counter
at the moment it subscribed, i.e. K+1 when it joined after publish K)
up to the current counter minus one: it received every publish issued
while it was in the subscriber set and none of publishes 1..K from
before it joined. -/
theorem late_subscriber_gets_only_later_publishes (t : List Event)
    (c : String) (d : ChannelData)
    (hd : afind c (run t).eventEmitters = some d) :
    ∀ s ∈ getListeners d.emitterId (run t).listeners,
      1 ≤ s.joinedAt ∧ s.joinedAt ≤ d.messageCounter ∧
      receivedIds s.frames
        = List.range' s.joinedAt (d.messageCounter - s.joinedAt) := by
  obtain ⟨h1, _, _⟩ := inv_run t
  obtain ⟨_, _, _, hds, _⟩ := h1 c d hd
  intro s hs
  obtain ⟨_, _, q3, q4, q5⟩ := hds s hs
  exact ⟨q3, q4, q5⟩

theorem late_subscriber_gets_only_later_publishes_witness :
    1 ≤ (2 : Nat) ∧ (2 : Nat) ≤ 3 ∧
    receivedIds [Frame.init, Frame.data ⟨"a", 2, some "w", some "z", 2⟩,
        Frame.idLine 2] = List.range' 2 1 :=
  late_subscriber_gets_only_later_publishes
    [Event.getEvents "a" true, Event.postMessage "a" (some "x") (some "y"),
      Event.getEvents "a" true, Event.postMessage "a" (some "z") (some "w")]
    "a" ⟨0, 3⟩ (by decide)
    ⟨1, "a", 3, 2, true, true,
      [Frame.init, Frame.data ⟨"a", 2, some "w", some "z", 2⟩, Frame.idLine 2]⟩
    (by decide)

/-- C8: (i) over any well-formed trace, a hub exists for channel c at
the end iff the trace contains a subscribe to c with no later deletion
of c (the `hubAlive` predicate written from the spec); (ii) deleting a
channel removes its hub; (iii) a subscribe to a channel with no hub
lazily creates a fresh hub with sequence counter 1. -/
theorem hub_exists_iff_subscribed_since_delete :
    (∀ t : List Event, t.all evWf = true → ∀ c : String,
        (afind c (run t).eventEmitters).isSome = hubAlive c t) ∧
    (∀ (σ : ServerState) (c : String), c ≠ "" →
        afind c (stepState σ (Event.deleteChannel c)).eventEmitters = none) ∧
    (∀ (σ : ServerState) (c : String), afind c σ.eventEmitters = none →
        afind c (stepState σ (Event.getEvents c true)).eventEmitters
          = some ⟨σ.nextEmitterId, 1⟩) := by
  refine ⟨?_, ?_, ?_⟩
  · intro t hwf c
    exact hub_presence_foldl t initState hwf c
  · intro σ c hc
    show afind c (deleteChannelHandler σ c).1.eventEmitters = none
    rw [deleteChannel_state σ c hc]
    exact afind_aerase_self c σ.eventEmitters
  · intro σ c hd
    show afind c (getEventsHandler σ c true).1.eventEmitters = some ⟨σ.nextEmitterId, 1⟩
    rw [getEvents_none_state σ c hd]
    exact afind_aset_self c ⟨σ.nextEmitterId, 1⟩ σ.eventEmitters

theorem hub_exists_iff_subscribed_since_delete_witness :
    ((afind "a" (run [Event.getEvents "a" true]).eventEmitters).isSome
        = hubAlive "a" [Event.getEvents "a" true]) ∧
    (afind "a" (stepState (run [Event.getEvents "a" true])
        (Event.deleteChannel "a")).eventEmitters = none) ∧
    (afind "a" (stepState initState (Event.getEvents "a" true)).eventEmitters
        = some ⟨0, 1⟩) :=
  ⟨hub_exists_iff_subscribed_since_delete.1 [Event.getEvents "a" true]
      (by decide) "a",
   hub_exists_iff_subscribed_since_delete.2.1 (run [Event.getEvents "a" true])
      "a" (by decide),
   hub_exists_iff_subscribed_since_delete.2.2 initState "a" rfl⟩

/-- C9: a keepalive interval firing writes only the `:` comment frame:
the registry, the publish log, the store and every hub counter are
unchanged, every subscriber keeps its identity, captured counter,
join point and received sequence ids (a keepalive carries no payload
and no `id:` line and consumes no sequence number), and the only frame
a subscriber can gain is `Frame.keepalive`.  The transition is enabled
at every state, independent of publish activity. -/
theorem keepalive_preserves_hub_state (σ : ServerState) (k : Nat) :
    (stepState σ (Event.keepaliveTick k)).eventEmitters = σ.eventEmitters ∧
    (stepState σ (Event.keepaliveTick k)).pubLog = σ.pubLog ∧
    (stepState σ (Event.keepaliveTick k)).store = σ.store ∧
    (stepState σ (Event.keepaliveTick k)).nextEmitterId = σ.nextEmitterId ∧
    (∀ e : Nat,
      (getListeners e (stepState σ (Event.keepaliveTick k)).listeners).map
          (fun s => (s.connId, s.chanId, s.counter, s.joinedAt, receivedIds s.frames))
        = (getListeners e σ.listeners).map
            (fun s => (s.connId, s.chanId, s.counter, s.joinedAt, receivedIds s.frames))) ∧
    (∀ s : Subscriber, (tickSub k s).frames = s.frames ∨
        (tickSub k s).frames = s.frames ++ [Frame.keepalive]) := by
  refine ⟨rfl, rfl, rfl, rfl, ?_, ?_⟩
  · intro e
    show (getListeners e
        (σ.listeners.map (fun p => (p.1, p.2.map (tickSub k))))).map _ = _
    rw [getListeners_map, List.map_map]
    apply List.map_congr_left
    intro s _
    simp only [Function.comp_apply]
    rw [tickSub_connId, tickSub_chanId, tickSub_counter, tickSub_joinedAt,
      tickSub_receivedIds]
  · intro s
    unfold tickSub
    split
    · right; rfl
    · left; rfl

/-- C10: opening a second stream for a channel that already has a hub
attaches the new subscriber to the same existing emitter with its
captured counter initialised to the stored counter value; the registry
is wholly unchanged (no new hub replaces the existing one and every
other channel's entry is untouched) and no new emitter is allocated. -/
theorem getOrCreateHub_idempotent (σ : ServerState) (c : String)
    (d : ChannelData) (hd : afind c σ.eventEmitters = some d) :
    (stepState σ (Event.getEvents c true)).eventEmitters = σ.eventEmitters ∧
    (stepState σ (Event.getEvents c true)).nextEmitterId = σ.nextEmitterId ∧
    getListeners d.emitterId (stepState σ (Event.getEvents c true)).listeners
      = getListeners d.emitterId σ.listeners ++
        [⟨σ.nextConnId, c, d.messageCounter, d.messageCounter, true, true,
          [Frame.init]⟩] ∧
    ∀ e : Nat, e ≠ d.emitterId →
      getListeners e (stepState σ (Event.getEvents c true)).listeners
        = getListeners e σ.listeners := by
  show ((getEventsHandler σ c true).1.eventEmitters = _) ∧
    ((getEventsHandler σ c true).1.nextEmitterId = _) ∧
    (getListeners d.emitterId (getEventsHandler σ c true).1.listeners = _) ∧
    ∀ e : Nat, e ≠ d.emitterId →
      getListeners e (getEventsHandler σ c true).1.listeners
        = getListeners e σ.listeners
  rw [getEvents_some_state σ c hd]
  refine ⟨rfl, rfl, ?_, ?_⟩
  · exact getListeners_aset_self _ _ _
  · intro e he
    exact getListeners_aset_ne _ _ he

theorem getOrCreateHub_idempotent_witness :
    ((stepState (run [Event.getEvents "c" true])
        (Event.getEvents "c" true)).eventEmitters
      = (run [Event.getEvents "c" true]).eventEmitters) ∧
    ((stepState (run [Event.getEvents "c" true])
        (Event.getEvents "c" true)).nextEmitterId
      = (run [Event.getEvents "c" true]).nextEmitterId) ∧
    (getListeners 0 (stepState (run [Event.getEvents "c" true])
        (Event.getEvents "c" true)).listeners
      = getListeners 0 (run [Event.getEvents "c" true]).listeners ++
        [⟨1, "c", 1, 1, true, true, [Frame.init]⟩]) ∧
    ∀ e : Nat, e ≠ 0 →
      getListeners e (stepState (run [Event.getEvents "c" true])
          (Event.getEvents "c" true)).listeners
        = getListeners e (run [Event.getEvents "c" true]).listeners :=
  getOrCreateHub_idempotent (run [Event.getEvents "c" true]) "c" ⟨0, 1⟩
    (by decide)

/-- C5: POST /message/:channelId with all fields present (present in
the code's own sense, `!field` false: supplied and non-empty).  If no
hub exists for the channel, the client sees the 404 ("no active
subscribers"), nothing is broadcast (listeners and publish log are
untouched, no hub is created), but the message row is still persisted.
If a hub exists, the client sees the 201, the row is persisted, and
publish is applied exactly once to the hub's subscriber set with the
full message payload. -/
theorem post_message_hub_branches (σ : ServerState) (c ct un : String)
    (hc : c ≠ "") (hct : ct ≠ "") (hun : un ≠ "") :
    (afind c σ.eventEmitters = none →
      (postMessageHandler σ c (some ct) (some un)).2.head?
          = some ⟨404, RespBody.channelNotFound⟩ ∧
      (postMessageHandler σ c (some ct) (some un)).1.store.messages
          = σ.store.messages ++
            [⟨σ.store.nextMessageId, some ct, c, some un, σ.store.nextMessageId⟩] ∧
      (postMessageHandler σ c (some ct) (some un)).1.listeners = σ.listeners ∧
      (postMessageHandler σ c (some ct) (some un)).1.pubLog = σ.pubLog ∧
      (postMessageHandler σ c (some ct) (some un)).1.eventEmitters
          = σ.eventEmitters) ∧
    (∀ d : ChannelData, afind c σ.eventEmitters = some d →
      (postMessageHandler σ c (some ct) (some un)).2.head?
          = some ⟨201, RespBody.chatPosted⟩ ∧
      (postMessageHandler σ c (some ct) (some un)).1.store.messages
          = σ.store.messages ++
            [⟨σ.store.nextMessageId, some ct, c, some un, σ.store.nextMessageId⟩] ∧
      getListeners d.emitterId
          (postMessageHandler σ c (some ct) (some un)).1.listeners
        = (getListeners d.emitterId σ.listeners).map
            (broadcastStep (mkPayload σ c (some ct) (some un)))) := by
  constructor
  · intro hd
    rw [postMessage_none_state σ c (some ct) (some un) hd]
    refine ⟨?_, rfl, rfl, rfl, rfl⟩
    simp [postMessageHandler, hd, hc, isFalsy_some_of_ne hct,
      isFalsy_some_of_ne hun]
  · intro d hd
    refine ⟨?_, ?_, ?_⟩
    · simp [postMessageHandler, hd, hc, isFalsy_some_of_ne hct,
        isFalsy_some_of_ne hun]
    · simp [postMessageHandler, hd]
    · simp only [postMessageHandler, hd, mkPayload]
      rw [getListeners_aset_self]

theorem post_message_hub_branches_witness :
    ((postMessageHandler initState "ch" (some "x") (some "u")).2.head?
        = some ⟨404, RespBody.channelNotFound⟩) ∧
    ((postMessageHandler (run [Event.getEvents "ch" true]) "ch"
        (some "x") (some "u")).2.head? = some ⟨201, RespBody.chatPosted⟩) :=
  ⟨((post_message_hub_branches initState "ch" "x" "u" (by decide) (by decide)
      (by decide)).1 (by decide)).1,
   (((post_message_hub_branches (run [Event.getEvents "ch" true]) "ch" "x" "u"
      (by decide) (by decide) (by decide)).2) ⟨0, 1⟩ (by decide)).1⟩

/-- C3 (code bug): with one streaming connection open on channel "1",
none of the three closing triggers releases the Subscriber Handle.
After a client disconnect the listener is still registered with its
keepalive interval running (the source installs no req close handler);
a server shutdown changes nothing (no shutdown hook exists); and
deleting the channel removes the registry entry but the listener and
its interval survive on the orphaned emitter (nothing emits "close",
and even the installed close listener would remove nothing because it
passes a fresh anonymous function to removeListener). -/
theorem close_triggers_never_release_handle :
    ((getListeners 0 (stepState (run [Event.getEvents "1" true])
          (Event.clientDisconnect 0)).listeners).map
        (fun s => (s.connId, s.intervalActive)) = [(0, true)]) ∧
    (stepState (run [Event.getEvents "1" true]) Event.serverShutdown
        = run [Event.getEvents "1" true]) ∧
    ((getListeners 0 (stepState (run [Event.getEvents "1" true])
          (Event.deleteChannel "1")).listeners).map
        (fun s => (s.connId, s.intervalActive)) = [(0, true)]) ∧
    afind "1" (stepState (run [Event.getEvents "1" true])
        (Event.deleteChannel "1")).eventEmitters = none := by
  decide

/-- C4 (code bug): validation failure does not short-circuit.  POST
/channel with no name sends the 400 and then still inserts a row into
the channels table; POST /message/1 with no content (one stream open on
channel "1") sends the 400 and then still inserts the row and still
broadcasts it to the subscriber — the source lacks a `return` after
each 400. -/
theorem validation_does_not_short_circuit :
    ((postChannelHandler initState none).2.head?
        = some ⟨400, RespBody.missingArg⟩ ∧
      (postChannelHandler initState none).1.store.channels = [⟨1, none⟩]) ∧
    ((postMessageHandler (run [Event.getEvents "1" true]) "1" none
          (some "alice")).2.head? = some ⟨400, RespBody.missingArg⟩ ∧
      (postMessageHandler (run [Event.getEvents "1" true]) "1" none
          (some "alice")).1.store.messages
        = [⟨1, none, "1", some "alice", 1⟩] ∧
      (postMessageHandler (run [Event.getEvents "1" true]) "1" none
          (some "alice")).1.pubLog = [(0, 1)] ∧
      (getListeners 0 (postMessageHandler (run [Event.getEvents "1" true])
            "1" none (some "alice")).1.listeners).map (fun s => s.frames)
        = [[Frame.init, Frame.data ⟨"1", 1, some "alice", none, 1⟩,
            Frame.idLine 1]]) := by
  decide

/-- C6 (code bug): a failed connection's subscriber is never removed.
Two streams are open on channel "1", the first client's socket dies,
then a message is published: delivery is attempted to both listeners
(each gets the data frame and id 1 — a write to a dead socket is a
no-op, not an exception), the failure is not surfaced, but the dead
connection's handle is still in the subscriber set afterwards — the
source has no unsubscribe-on-failure path at all. -/
theorem failed_subscriber_not_removed :
    (getListeners 0 (run [Event.getEvents "1" true, Event.getEvents "1" true,
        Event.clientDisconnect 0,
        Event.postMessage "1" (some "hi") (some "bob")]).listeners).map
      (fun s => (s.connId, s.connAlive, receivedIds s.frames))
      = [(0, false, [1]), (1, true, [1])] := by
  decide

end SseChat
